import Mathlib

/-!
Verification of the MegaCluster router (megaorm-cluster, src/index.ts).

The development shallowly embeds the cluster as a pure state machine:

* asynchronous collaborator outcomes (pool shutdown, connection close,
  logger write) are modelled by oracle Booleans carried on the pool,
  connection and logger records, so a settled Promise chain becomes a
  pure function from cluster state to a result together with the next
  state;
* JavaScript regular expressions are modelled for the fragment actually
  generated by the cluster code: a leading caret anchors at the start,
  a dot matches any character, a star is the Kleene closure of the
  single preceding atom, and every other character is a literal.
  Matching is case sensitive and unanchored (a search over all start
  positions), as in RegExp.test;
* the post-shutdown replacement of the public methods by throwing or
  rejecting stubs is modelled by a `closed` flag checked at entry of
  exactly the methods the source replaces (add, remove, request,
  shutdown, closePendingConnections).
-/

deriving instance DecidableEq for Except

namespace MegaClusterModel

/-- One parsed regular-expression atom of the modelled fragment:
a literal character, a dot, or the Kleene star of either. -/
inductive RItem where
  | lit (c : Char)
  | anyOne
  | litMany (c : Char)
  | anyMany
deriving DecidableEq, Repr

/-- Parse a regular-expression source (already stripped of a leading
caret) into a list of atoms. A star applies to the directly preceding
character, as in the fragment the cluster generates. -/
def parseItems : List Char → List RItem
  | [] => []
  | c :: '*' :: rest =>
    (if c = '.' then RItem.anyMany else RItem.litMany c) :: parseItems rest
  | c :: rest =>
    (if c = '.' then RItem.anyOne else RItem.lit c) :: parseItems rest

/-- Does the item list match the empty input? Exactly when every
remaining item is a star (each star takes zero repetitions). -/
def emptyMatch : List RItem → Bool
  | [] => true
  | RItem.litMany _ :: ps => emptyMatch ps
  | RItem.anyMany :: ps => emptyMatch ps
  | RItem.lit _ :: _ => false
  | RItem.anyOne :: _ => false

/-- One step of matching at an input position holding character `x`,
where `next` matches the remaining input against a given item list. A
starred item either takes zero repetitions (keep matching the rest of
the items here) or consumes `x` and stays. -/
def stepMatch (x : Char) (next : List RItem → Bool) : List RItem → Bool
  | [] => true
  | RItem.lit c :: ps => c == x && next ps
  | RItem.anyOne :: ps => next ps
  | RItem.litMany c :: ps =>
    stepMatch x next ps || (c == x && next (RItem.litMany c :: ps))
  | RItem.anyMany :: ps =>
    stepMatch x next ps || next (RItem.anyMany :: ps)

/-- Match the item list against the input, by structural recursion on
the input. -/
def matchFrom : List Char → List RItem → Bool
  | [], ps => emptyMatch ps
  | x :: xs, ps => stepMatch x (matchFrom xs) ps

/-- Does the item list match some prefix of the input? The empty item
list matches everything, mirroring RegExp.test which only needs a
match to exist, not to span the whole input. -/
def itemsMatch (ps : List RItem) (s : List Char) : Bool := matchFrom s ps

/-- Unanchored search: try a match at every start position. -/
def searchFrom (ps : List RItem) : List Char → Bool
  | [] => itemsMatch ps []
  | x :: xs => itemsMatch ps (x :: xs) || searchFrom ps xs

/-- Model of `new RegExp(pattern).test(s)` for the modelled fragment:
a leading caret anchors the match at the start, otherwise the pattern
may match anywhere in the input. -/
def regexTest (pattern : String) (s : String) : Bool :=
  match pattern.data with
  | c :: rest =>
    if c = '^' then itemsMatch (parseItems rest) s.data
    else searchFrom (parseItems (c :: rest)) s.data
  | [] => searchFrom (parseItems []) s.data

/-- Replace the first occurrence of a star by a dot-star, leaving any
later star untouched: the model of `name.replace(/\*/, '.*')` in
`toRegex` (src/index.ts line 267). -/
def replaceFirstStar : List Char → List Char
  | [] => []
  | c :: rest =>
    if c = '*' then '.' :: '*' :: rest
    else c :: replaceFirstStar rest

/-- The regular-expression source string `toRegex` builds from a string
pattern. -/
def toRegexSrc (s : String) : String := ⟨replaceFirstStar s.data⟩

/-- A name argument as it arrives at runtime: a string, a regular
expression (modelled by its test predicate), or an invalid value of any
other type (carrying only its display text). -/
inductive Pattern where
  | str (s : String)
  | regex (test : String → Bool)
  | bad (desc : String)

/-- `isStr(name) || isRegex(name)`: the validation every
pattern-taking method performs. -/
def patValid : Pattern → Bool
  | Pattern.bad _ => false
  | _ => true

/-- The test predicate of the regular expression a pattern compiles to
(`toRegex` in src/index.ts). The `bad` case is never reached behind
validation. -/
def patTest : Pattern → (String → Bool)
  | Pattern.str s => regexTest (toRegexSrc s)
  | Pattern.regex t => t
  | Pattern.bad _ => fun _ => false

/-- A registered pool. `pid` models JavaScript object identity;
`shutdownOk` is the oracle telling whether `pool.shutdown()` fulfills
or rejects when awaited. -/
structure Pool where
  pid : Nat
  name : String
  shutdownOk : Bool
deriving DecidableEq, Repr

/-- A pending connection surfaced by a close-failure event. `closeOk`
is the oracle for `connection.close()`; `errMsg` is the message of the
rejection reason when the close fails. -/
structure Conn where
  cid : Nat
  closeOk : Bool
  errMsg : String
deriving DecidableEq, Repr

/-- The configured logger collaborator: `logOk` tells whether
`logger.log` fulfills, `errMsg` is its rejection message otherwise. -/
structure MLogger where
  logOk : Bool
  errMsg : String
deriving DecidableEq, Repr

/-- The pool-resolving mode (`ORDER_MODE` or `RANDOM_MODE`). -/
inductive Mode where
  | order
  | random
deriving DecidableEq, Repr

/-- Every error surface of the cluster, keyed by the throw sites in
src/index.ts. -/
inductive Err where
  | invalidPool (s : String)
  | conflict (name : String)
  | invalidName (s : String)
  | noPool
  | noMatch (s : String)
  | shutdownFail (names : List String)
  | closeFail (msg : String)
  | invalidWarning (s : String)
  | invalidWarnings (s : String)
  | terminal
  | shutdownWrap (msg : String)
deriving DecidableEq, Repr

/-- The cluster state: active pools, frozen pools, pending connections,
warnings, mode, optional logger, and the Live/Closed flag (`closed`
models the replacement of add/remove/request/shutdown/
closePendingConnections by terminal stubs after a successful
shutdown). -/
structure Cluster where
  pools : List Pool
  frozen : List Pool
  pending : List Conn
  warnings : List String
  mode : Mode
  logger : Option MLogger
  closed : Bool
deriving DecidableEq, Repr

/-- A fresh cluster as built by the constructor (no initial pools). -/
def Cluster.init : Cluster :=
  { pools := [], frozen := [], pending := [], warnings := []
    mode := Mode.order, logger := none, closed := false }

/-- Display text of a pattern, used in error messages. -/
def patDesc : Pattern → String
  | Pattern.str s => s
  | Pattern.regex _ => "[object RegExp]"
  | Pattern.bad d => d

/-- The `match` helper (src/index.ts lines 276-287): loop over the
pools and push every pool whose name the regular expression accepts. -/
def matchPools (test : String → Bool) (pools : List Pool) : List Pool :=
  List.foldl (fun acc p => if test p.name then acc ++ [p] else acc) [] pools

/-- `has.active(name)` with a string argument (src/index.ts lines
660-668): true when at least one active pool matches the regular
expression compiled from the name. -/
def hasActiveName (c : Cluster) (name : String) : Bool :=
  !(matchPools (regexTest (toRegexSrc name)) c.pools).isEmpty

/-- `has.frozen(name)` with a string argument (src/index.ts lines
651-659), over the frozen list. -/
def hasFrozenName (c : Cluster) (name : String) : Bool :=
  !(matchPools (regexTest (toRegexSrc name)) c.frozen).isEmpty

/-- `add(pool)` (src/index.ts lines 369-430). The argument is a valid
pool instance by typing; the conflict check reuses `has.active` and
`has.frozen` with the new pool name, and on success the pool is pushed
at the end of the active list. The closed branch models the `fail` stub
installed by a successful shutdown. -/
def addRun (p : Pool) (c : Cluster) : Except Err Unit × Cluster :=
  if c.closed then (Except.error Err.terminal, c)
  else if hasActiveName c p.name || hasFrozenName c p.name then
    (Except.error (Err.conflict p.name), c)
  else
    (Except.ok (), { c with pools := c.pools ++ [p] })

/-- `remove(name)` (src/index.ts lines 452-484): validate the pattern,
match against active ++ frozen, shut every matched pool down, wait for
all outcomes, drop the successfully shut pools from the active list
only, then resolve when no shutdown failed and reject with the failing
pool names otherwise. The closed branch models the rejecting stub
installed by a successful shutdown. -/
def removeRun (pat : Pattern) (c : Cluster) : Except Err Unit × Cluster :=
  if c.closed then (Except.error Err.terminal, c)
  else if !(patValid pat) then (Except.error (Err.invalidName (patDesc pat)), c)
  else
    let matched := matchPools (patTest pat) (c.pools ++ c.frozen)
    if matched.isEmpty then (Except.ok (), c)
    else
      let resolved := matched.filter (fun p => p.shutdownOk)
      let rejected := matched.filter (fun p => !p.shutdownOk)
      let c' := { c with
        pools := c.pools.filter (fun p => !(resolved.any (fun q => q.pid == p.pid))) }
      if rejected.isEmpty then (Except.ok (), c')
      else (Except.error (Err.shutdownFail (rejected.map Pool.name)), c')

/-- `freeze(name)` (src/index.ts lines 504-517): move every matched
active pool to the end of the frozen list. -/
def freezeRun (pat : Pattern) (c : Cluster) : Except Err Unit × Cluster :=
  if !(patValid pat) then (Except.error (Err.invalidName (patDesc pat)), c)
  else
    match matchPools (patTest pat) c.pools with
    | [] => (Except.error (Err.noMatch (patDesc pat)), c)
    | q :: qs =>
      (Except.ok (), { c with
        pools := c.pools.filter (fun p => !((q :: qs).any (fun r => r.pid == p.pid)))
        frozen := c.frozen ++ (q :: qs) })

/-- `unfreeze(name)` (src/index.ts lines 526-539): move every matched
frozen pool back to the end of the active list. -/
def unfreezeRun (pat : Pattern) (c : Cluster) : Except Err Unit × Cluster :=
  if !(patValid pat) then (Except.error (Err.invalidName (patDesc pat)), c)
  else
    match matchPools (patTest pat) c.frozen with
    | [] => (Except.error (Err.noMatch (patDesc pat)), c)
    | q :: qs =>
      (Except.ok (), { c with
        frozen := c.frozen.filter (fun p => !((q :: qs).any (fun r => r.pid == p.pid)))
        pools := c.pools ++ (q :: qs) })

/-- `get.pool(name)` (src/index.ts lines 717-756). `rnd` is the oracle
for `randomBetween`: in random mode the selected index is
`rnd % length`, which is always in range. With no name, ordered mode
dequeues the head and enqueues it at the tail; with a name matching two
or more active pools, ordered mode removes the selected pool from the
global active list by name and re-appends it at the tail; a single
match is returned without any mutation. -/
def getPool (rnd : Nat) (pat : Option Pattern) (c : Cluster) :
    Except Err (Pool × Cluster) :=
  match c.pools with
  | [] => Except.error Err.noPool
  | p0 :: rest =>
    match pat with
    | none =>
      match c.mode with
      | Mode.random =>
        Except.ok ((p0 :: rest).getD (rnd % (p0 :: rest).length) p0, c)
      | Mode.order =>
        Except.ok (p0, { c with pools := rest ++ [p0] })
    | some pt =>
      if !(patValid pt) then Except.error (Err.invalidName (patDesc pt))
      else
        match matchPools (patTest pt) (p0 :: rest) with
        | [] => Except.error (Err.noMatch (patDesc pt))
        | [q] => Except.ok (q, c)
        | q :: q2 :: qs =>
          match c.mode with
          | Mode.random =>
            Except.ok
              ((q :: q2 :: qs).getD (rnd % (q :: q2 :: qs).length) q, c)
          | Mode.order =>
            Except.ok (q, { c with
              pools := (p0 :: rest).filter (fun r => q.name != r.name) ++ [q] })

/-- `request(name)` (src/index.ts lines 491-495) selects a pool with
`get.pool` and delegates to the pool request contract; the model
returns the selected pool, the connection outcome being owned by the
external pool collaborator. The closed branch models the rejecting
stub installed by a successful shutdown. -/
def requestRun (rnd : Nat) (pat : Option Pattern) (c : Cluster) :
    Except Err (Pool × Cluster) :=
  if c.closed then Except.error Err.terminal
  else getPool rnd pat c

/-- `closePendingConnections(force)` (src/index.ts lines 560-586):
resolve at once on an empty store; otherwise close every pending
connection, wait for all outcomes, then either clear the store (force)
or keep exactly the connections whose close failed and reject with the
first failing reason when one exists. A non-boolean force argument is
coerced to false at the call boundary, so the model takes a Bool. The
closed branch models the rejecting stub installed by a successful
shutdown. -/
def closePendingRun (force : Bool) (c : Cluster) : Except Err Unit × Cluster :=
  if c.closed then (Except.error Err.terminal, c)
  else if c.pending.isEmpty then (Except.ok (), c)
  else if force then (Except.ok (), { c with pending := [] })
  else
    match c.pending.find? (fun con => !con.closeOk) with
    | none => (Except.ok (), { c with pending := [] })
    | some con =>
      (Except.error (Err.closeFail con.errMsg),
        { c with pending := c.pending.filter (fun x => !x.closeOk) })

/-- The message of each error, mirroring the strings thrown in
src/index.ts (the terminal message is paraphrased without the
apostrophe of the source text). -/
def errMessage : Err → String
  | Err.invalidPool s => "Invalid pool: " ++ s
  | Err.conflict n => "Pool names must be unique: " ++ n
  | Err.invalidName s => "Invalid pool name: " ++ s
  | Err.noPool => "No pool found!"
  | Err.noMatch s => "No matching pool found: " ++ s
  | Err.shutdownFail names => "Shutdown fail in: " ++ String.intercalate ", " names
  | Err.closeFail m => m
  | Err.invalidWarning s => "Invalid warning: " ++ s
  | Err.invalidWarnings s => "Invalid warnings: " ++ s
  | Err.terminal => "Cannot perform any farther operations after shutdown"
  | Err.shutdownWrap m => m

/-- `shutdown(force)` (src/index.ts lines 602-642): run `remove('*')`,
then `closePendingConnections(force)`; on success of both, transition
to the Closed terminal state (the source nullifies the state fields and
replaces add/remove/request/shutdown/closePendingConnections with
terminal stubs, modelled by the `closed` flag); on failure of either
step, reject with a ShutdownError wrapping the message of the
underlying cause, keeping whatever state the sub-steps committed. -/
def shutdownRun (force : Bool) (c : Cluster) : Except Err Unit × Cluster :=
  if c.closed then (Except.error Err.terminal, c)
  else
    match removeRun (Pattern.str "*") c with
    | (Except.ok _, c1) =>
      (match closePendingRun force c1 with
       | (Except.ok _, c2) => (Except.ok (), { c2 with closed := true })
       | (Except.error e, c2) => (Except.error (Err.shutdownWrap (errMessage e)), c2))
    | (Except.error e, c1) => (Except.error (Err.shutdownWrap (errMessage e)), c1)

/-- The `log` closure built inside `add` (src/index.ts lines 378-386):
push the warning message, and when a logger is configured whose write
rejects, additionally push a logger-failure warning once that
rejection settles. The handler never fails: it returns a cluster
unconditionally. -/
def logWarn (message : String) (c : Cluster) : Cluster :=
  let c1 := { c with warnings := c.warnings ++ [message] }
  match c.logger with
  | some lg =>
    if lg.logOk then c1
    else { c1 with warnings := c1.warnings ++ ["Failed to write log: " ++ lg.errMsg] }
  | none => c1

/-- The CREATE_FAIL handler registered at add time (src/index.ts lines
393-395). -/
def onCreateFail (poolName : String) (c : Cluster) : Cluster :=
  logWarn ("Creating connection failed in: " ++ poolName) c

/-- The CLOSE_FAIL handler registered at add time (src/index.ts lines
388-391): store the pending connection, then log. -/
def onCloseFail (conn : Conn) (poolName : String) (c : Cluster) : Cluster :=
  logWarn ("Closing connection failed in: " ++ poolName)
    { c with pending := c.pending ++ [conn] }

/-- A runtime element of the array handed to `set.warnings`: a string
or a value of any other type. -/
inductive WInput where
  | str (s : String)
  | other (desc : String)
deriving DecidableEq, Repr

/-- The runtime argument of `set.warnings`: a string, an array, or a
value of any other type. -/
inductive WArg where
  | str (s : String)
  | arr (msgs : List WInput)
  | other (desc : String)
deriving DecidableEq, Repr

/-- The forEach loop of `set.warnings` over a non-empty array
(src/index.ts lines 692-700): push each string element in order and
throw at the first non-string element, keeping what was pushed. -/
def pushWarnings : List WInput → Cluster → Except Err Unit × Cluster
  | [], c => (Except.ok (), c)
  | WInput.str s :: rest, c =>
    pushWarnings rest { c with warnings := c.warnings ++ [s] }
  | WInput.other d :: _, c => (Except.error (Err.invalidWarning d), c)

/-- `set.warnings(messages)` (src/index.ts lines 689-703): a string is
pushed, an empty array clears the warnings, a non-empty array is walked
by the forEach loop, anything else throws. -/
def setWarningsRun (arg : WArg) (c : Cluster) : Except Err Unit × Cluster :=
  match arg with
  | WArg.str s => (Except.ok (), { c with warnings := c.warnings ++ [s] })
  | WArg.arr [] => (Except.ok (), { c with warnings := [] })
  | WArg.arr (m :: rest) => pushWarnings (m :: rest) c
  | WArg.other d => (Except.error (Err.invalidWarnings d), c)

/-- `n` successive no-pattern selections through `get.pool`, collecting
the returned pools in order together with the final state; a selection
error stops the run. -/
def selectN (rnd : Nat) : Nat → Cluster → List Pool × Cluster
  | 0, c => ([], c)
  | Nat.succ n, c =>
    match getPool rnd none c with
    | Except.ok (p, c') =>
      let r := selectN rnd n c'
      (p :: r.1, r.2)
    | Except.error _ => ([], c)

/-- `n` successive selections through `get.pool` with a fixed pattern,
collecting the returned pools in order together with the final state; a
selection error stops the run. -/
def selectPatN (rnd : Nat) (pat : Pattern) : Nat → Cluster → List Pool × Cluster
  | 0, c => ([], c)
  | Nat.succ n, c =>
    match getPool rnd (some pat) c with
    | Except.ok (p, c') =>
      let r := selectPatN rnd pat n c'
      (p :: r.1, r.2)
    | Except.error _ => ([], c)

/-- Example pool asia_1 of the spec scenario. -/
def exAsia1 : Pool := ⟨1, "asia_1", true⟩

/-- Example pool asia_2 of the spec scenario. -/
def exAsia2 : Pool := ⟨2, "asia_2", true⟩

/-- Example cluster of the spec scenario: asia_1 and asia_2 registered
in that order, ordered mode. -/
def exCluster : Cluster := { Cluster.init with pools := [exAsia1, exAsia2] }

/-- A reachable cluster whose only pool is frozen: asia_1 is added and
then frozen. -/
def exFrozenCluster : Cluster :=
  (freezeRun (Pattern.str "asia_1") (addRun exAsia1 Cluster.init).2).2

/-- A reachable cluster with a single active pool named ab. -/
def exAbCluster : Cluster := (addRun ⟨1, "ab", true⟩ Cluster.init).2

/-- A reachable cluster with a single active pool whose name starts
with a caret. -/
def exCaretCluster : Cluster := (addRun ⟨1, "^x", true⟩ Cluster.init).2

/-- A reachable cluster with one active pool whose shutdown rejects. -/
def exFailCluster : Cluster := (addRun ⟨1, "w", false⟩ Cluster.init).2

/-- A cluster with two pending connections, the first of which fails
to close. -/
def exPendCluster : Cluster :=
  { Cluster.init with pending := [⟨1, false, "boom"⟩, ⟨2, true, "fine"⟩] }

/-- A cluster configured with a logger whose every write rejects. -/
def exLoggerCluster : Cluster :=
  { Cluster.init with logger := some ⟨false, "Ops"⟩ }

/-- The loop of the `match` helper is the filter of the pool list by
the regular-expression test on names. -/
theorem matchPools_eq_filter (test : String → Bool) (l : List Pool) :
    matchPools test l = l.filter (fun p => test p.name) := by
  have aux : ∀ (l : List Pool) (acc : List Pool),
      List.foldl (fun acc p => if test p.name then acc ++ [p] else acc) acc l =
        acc ++ l.filter (fun p => test p.name) := by
    intro l
    induction l with
    | nil => intro acc; simp
    | cons a t ih =>
      intro acc
      by_cases h : test a.name
      · simp [List.foldl, h, ih, List.filter_cons]
      · simp [List.foldl, h, ih, List.filter_cons]
  simpa [matchPools] using aux l []

/-- In ordered mode a no-pattern selection dequeues the head of the
active list, enqueues it at the tail and returns it. -/
theorem getPool_order_step (rnd : Nat) (c : Cluster) (p : Pool) (rest : List Pool)
    (hm : c.mode = Mode.order) (hp : c.pools = p :: rest) :
    getPool rnd none c = Except.ok (p, { c with pools := rest ++ [p] }) := by
  simp [getPool, hp, hm]

/-- Running as many ordered no-pattern selections as the length of a
leading segment of the active list returns exactly that segment, in
order, and rotates it to the back of the list. -/
theorem selectN_split (rnd : Nat) :
    ∀ (a b : List Pool) (c : Cluster), c.mode = Mode.order → c.pools = a ++ b →
      selectN rnd a.length c = (a, { c with pools := b ++ a }) := by
  intro a
  induction a with
  | nil =>
    intro b c hm hp
    simp only [List.nil_append] at hp
    subst hp
    simp [selectN]
  | cons p a' ih =>
    intro b c hm hp
    have hstep := getPool_order_step rnd c p (a' ++ b) hm (by simpa using hp)
    rw [List.append_assoc] at hstep
    have hrec := ih (b ++ [p]) { c with pools := a' ++ (b ++ [p]) } hm rfl
    simp only [List.length_cons, selectN, hstep]
    simp only [hrec]
    simp [List.append_assoc]

end MegaClusterModel

namespace MegaClusterModel

/-- C3: in ordered mode, with active pools `p :: rest` registered in
that order, a no-pattern selection dequeues the head and enqueues it at
the tail; `n` sequential no-pattern selections return the pools
exactly once each in registration order and restore the original
state, so the following (the `(n+1)`-th) selection returns the first
pool again. -/
theorem ordered_rotation_roundrobin (rnd : Nat) (c : Cluster) (p : Pool)
    (rest : List Pool) (hm : c.mode = Mode.order) (hp : c.pools = p :: rest) :
    getPool rnd none c = Except.ok (p, { c with pools := rest ++ [p] }) ∧
    selectN rnd (p :: rest).length c = (p :: rest, c) ∧
    getPool rnd none (selectN rnd (p :: rest).length c).2 =
      Except.ok (p, { c with pools := rest ++ [p] }) := by
  have hstep := getPool_order_step rnd c p rest hm hp
  have hsel := selectN_split rnd (p :: rest) [] c hm (by simp [hp])
  have hcc : ({ c with pools := [] ++ p :: rest } : Cluster) = c := by
    rw [List.nil_append, ← hp]
  rw [hcc] at hsel
  refine ⟨hstep, hsel, ?_⟩
  rw [hsel]
  exact hstep

/-- In a pool list with pairwise distinct names, filtering away the
name of a member is erasing that member. -/
theorem filter_name_ne_eq_erase (q : Pool) :
    ∀ (l : List Pool), q ∈ l → (l.map Pool.name).Nodup →
      l.filter (fun r => q.name != r.name) = l.erase q := by
  intro l
  induction l with
  | nil => intro h _; exact absurd h (List.not_mem_nil q)
  | cons a t ih =>
    intro hmem hnd
    rw [List.map_cons, List.nodup_cons] at hnd
    obtain ⟨hna, hndt⟩ := hnd
    rcases List.mem_cons.mp hmem with rfl | hqt
    · rw [List.erase_cons_head, List.filter_cons]
      simp only [bne_self_eq_false, Bool.false_eq_true, if_false]
      apply List.filter_eq_self.mpr
      intro r hr
      have hrn : r.name ∈ t.map Pool.name := List.mem_map_of_mem Pool.name hr
      have hne : q.name ≠ r.name := fun h => hna (h ▸ hrn)
      simpa using hne
    · have hne : q.name ≠ a.name := by
        intro h
        exact hna (h ▸ List.mem_map_of_mem Pool.name hqt)
      have haq : a ≠ q := fun h => hne (by rw [h])
      rw [List.filter_cons, List.erase_cons_tail (by simpa using haq)]
      simp only [bne_iff_ne, ne_eq, hne, not_false_eq_true, if_true]
      rw [ih hqt hndt]

/-- Rotating a matched pool to the tail leaves the non-matching pools
of the list untouched: filtering for non-matching pools commutes with
the removal of the selected (matching) pool. -/
theorem filter_frame (test : String → Bool) (q : Pool) (htest : test q.name = true) :
    ∀ l : List Pool,
      (l.filter (fun r => q.name != r.name)).filter (fun r => !(test r.name)) =
        l.filter (fun r => !(test r.name)) := by
  intro l
  induction l with
  | nil => rfl
  | cons a t ih =>
    by_cases hta : test a.name = true
    · by_cases hq : (q.name != a.name) = true
      · simp [List.filter_cons, hq, hta, ih]
      · simp [List.filter_cons, hq, hta, ih]
    · have hne : q.name ≠ a.name := by
        intro h
        rw [h] at htest
        exact hta htest
      simp [List.filter_cons, hta, hne, ih]

/-- In ordered mode a pattern selection with two or more matches
returns the head of the matched subset and moves it, by name, to the
tail of the whole active list. -/
theorem getPool_order_group (rnd : Nat) (c : Cluster) (pt : Pattern)
    (q q2 : Pool) (qs : List Pool)
    (hm : c.mode = Mode.order) (hv : patValid pt = true)
    (hmatch : matchPools (patTest pt) c.pools = q :: q2 :: qs) :
    getPool rnd (some pt) c =
      Except.ok
        (q, { c with pools := c.pools.filter (fun r => q.name != r.name) ++ [q] }) := by
  cases hpools : c.pools with
  | nil =>
    rw [hpools] at hmatch
    simp [matchPools] at hmatch
  | cons p0 restP =>
    rw [hpools] at hmatch
    simp [getPool, hpools, hv, hm, hmatch]

/-- C4: in ordered mode, a pattern selection with at least two matches
returns the head of the matched subset, removes it (the unique pool of
that name) from its position in the global active list, re-appends it
at the global tail, and leaves the pools outside the matched subset
untouched; on the concrete asia_1/asia_2 cluster, three selections
with the pattern asia_* return asia_1, asia_2, asia_1. -/
theorem group_rotation_frame (rnd : Nat) (c : Cluster) (pt : Pattern)
    (q q2 : Pool) (qs : List Pool)
    (hm : c.mode = Mode.order) (hv : patValid pt = true)
    (hmatch : matchPools (patTest pt) c.pools = q :: q2 :: qs)
    (hnodup : (c.pools.map Pool.name).Nodup) :
    getPool rnd (some pt) c =
      Except.ok
        (q, { c with pools := c.pools.filter (fun r => q.name != r.name) ++ [q] }) ∧
    c.pools.filter (fun r => q.name != r.name) = c.pools.erase q ∧
    (c.pools.filter (fun r => q.name != r.name) ++ [q]).filter
        (fun r => !(patTest pt r.name)) =
      c.pools.filter (fun r => !(patTest pt r.name)) ∧
    (selectPatN 0 (Pattern.str "asia_*") 3 exCluster).1 =
      [exAsia1, exAsia2, exAsia1] := by
  have hqf : q ∈ c.pools.filter (fun p => patTest pt p.name) := by
    rw [← matchPools_eq_filter, hmatch]
    exact List.mem_cons_self q (q2 :: qs)
  obtain ⟨hqmem, hqtest⟩ := List.mem_filter.mp hqf
  refine ⟨getPool_order_group rnd c pt q q2 qs hm hv hmatch,
    filter_name_ne_eq_erase q c.pools hqmem hnodup, ?_, by decide⟩
  rw [List.filter_append, filter_frame (patTest pt) q hqtest c.pools]
  simp [List.filter_cons, hqtest]

/-- Witness for C4 at the concrete two-pool cluster of the spec
scenario, with the pattern asia_*. -/
theorem group_rotation_frame_witness :
    getPool 0 (some (Pattern.str "asia_*")) exCluster =
      Except.ok
        (exAsia1,
          { exCluster with
            pools :=
              exCluster.pools.filter (fun r => exAsia1.name != r.name) ++
                [exAsia1] }) ∧
    exCluster.pools.filter (fun r => exAsia1.name != r.name) =
      exCluster.pools.erase exAsia1 ∧
    (exCluster.pools.filter (fun r => exAsia1.name != r.name) ++ [exAsia1]).filter
        (fun r => !(patTest (Pattern.str "asia_*") r.name)) =
      exCluster.pools.filter
        (fun r => !(patTest (Pattern.str "asia_*") r.name)) ∧
    (selectPatN 0 (Pattern.str "asia_*") 3 exCluster).1 =
      [exAsia1, exAsia2, exAsia1] :=
  group_rotation_frame 0 exCluster (Pattern.str "asia_*") exAsia1 exAsia2 []
    rfl rfl (by decide) (by decide)

/-- C1: evaluation of the code at the failing input. In the reachable
cluster whose only pool asia_1 is frozen (the freeze-then-remove
workflow the package documentation recommends), `remove('asia_1')`
matches the frozen pool, its shutdown succeeds and the call resolves,
yet the pool is still a member of the frozen list afterwards: remove
filters only the active list (src/index.ts line 473), so the claimed
partition — each pool in exactly one of active, frozen, removed — is
violated for frozen pools. -/
theorem remove_keeps_frozen_counterexample :
    exFrozenCluster.pools = [] ∧
    exFrozenCluster.frozen = [exAsia1] ∧
    exAsia1.shutdownOk = true ∧
    regexTest (toRegexSrc "asia_1") exAsia1.name = true ∧
    (removeRun (Pattern.str "asia_1") exFrozenCluster).1 = Except.ok () ∧
    exAsia1 ∈ (removeRun (Pattern.str "asia_1") exFrozenCluster).2.frozen := by
  decide

/-- The precise behaviour of `remove(pattern)` on a Live cluster with
a valid pattern (pool identities pairwise distinct): the frozen list
is unchanged — in particular a frozen matched pool whose shutdown
succeeded is still a member of the frozen list — while a pool remains
in the active list exactly when it was there before and is not a
successfully shut down match; the call resolves exactly when every
matched pool shut down successfully. -/
theorem remove_mutates_active_only (pat : Pattern) (c : Cluster)
    (hv : patValid pat = true) (hc : c.closed = false)
    (hid : ((c.pools ++ c.frozen).map Pool.pid).Nodup) :
    (removeRun pat c).2.frozen = c.frozen ∧
    (removeRun pat c).2.pools =
      c.pools.filter (fun p => !((patTest pat) p.name && p.shutdownOk)) ∧
    ((removeRun pat c).1 = Except.ok () ↔
      (matchPools (patTest pat) (c.pools ++ c.frozen)).all
        (fun p => p.shutdownOk) = true) := by
  by_cases hemp : (matchPools (patTest pat) (c.pools ++ c.frozen)).isEmpty = true
  · have hrm : removeRun pat c = (Except.ok (), c) := by
      simp [removeRun, hc, hv, hemp]
    have hnil : matchPools (patTest pat) (c.pools ++ c.frozen) = [] :=
      List.isEmpty_iff.mp hemp
    have hall : ∀ p ∈ c.pools ++ c.frozen, ¬((patTest pat) p.name = true) := by
      rw [matchPools_eq_filter] at hnil
      exact List.filter_eq_nil_iff.mp hnil
    refine ⟨by rw [hrm], ?_, ?_⟩
    · rw [hrm]
      symm
      apply List.filter_eq_self.mpr
      intro p hp
      have := hall p (List.mem_append_left c.frozen hp)
      simp only [Bool.not_eq_true'] at this ⊢
      simp [Bool.not_eq_true] at this ⊢
      simp [this]
    · rw [hrm, hnil]
      simp
  · have hemp' : (matchPools (patTest pat) (c.pools ++ c.frozen)).isEmpty = false := by
      simpa using hemp
    have bool_ext : ∀ (a b : Bool), (a = true ↔ b = true) → a = b := by decide
    have key : ∀ p ∈ c.pools,
        (((matchPools (patTest pat) (c.pools ++ c.frozen)).filter
            (fun q => q.shutdownOk)).any (fun q => q.pid == p.pid)) =
          ((patTest pat) p.name && p.shutdownOk) := by
      intro p hp
      apply bool_ext
      constructor
      · intro h
        obtain ⟨q, hq, hqp⟩ := List.any_eq_true.mp h
        rw [matchPools_eq_filter] at hq
        obtain ⟨hq1, hqok⟩ := List.mem_filter.mp hq
        obtain ⟨hq2, hqtest⟩ := List.mem_filter.mp hq1
        have hpid : q.pid = p.pid := by simpa using hqp
        have hqep : q = p :=
          List.inj_on_of_nodup_map hid hq2 (List.mem_append_left c.frozen hp) hpid
        subst hqep
        rw [Bool.and_eq_true]
        exact ⟨hqtest, hqok⟩
      · intro h
        rw [Bool.and_eq_true] at h
        obtain ⟨htest, hok⟩ := h
        apply List.any_eq_true.mpr
        refine ⟨p, ?_, by simp⟩
        rw [matchPools_eq_filter]
        exact List.mem_filter.mpr
          ⟨List.mem_filter.mpr ⟨List.mem_append_left c.frozen hp, htest⟩, hok⟩
    by_cases hrej : ((matchPools (patTest pat) (c.pools ++ c.frozen)).filter
        (fun p => !p.shutdownOk)).isEmpty = true
    · have hrm : removeRun pat c =
          (Except.ok (), { c with pools := c.pools.filter (fun p =>
            !(((matchPools (patTest pat) (c.pools ++ c.frozen)).filter
              (fun q => q.shutdownOk)).any (fun q => q.pid == p.pid))) }) := by
        simp [removeRun, hc, hv, hemp', hrej]
      have hallok : (matchPools (patTest pat) (c.pools ++ c.frozen)).all
          (fun p => p.shutdownOk) = true := by
        apply List.all_eq_true.mpr
        intro a ha
        have := List.filter_eq_nil_iff.mp (List.isEmpty_iff.mp hrej) a ha
        simpa using this
      refine ⟨by rw [hrm], ?_, ?_⟩
      · rw [hrm]
        apply List.filter_congr
        intro p hp
        rw [key p hp]
      · rw [hrm]
        simp [hallok]
    · have hrej' : ((matchPools (patTest pat) (c.pools ++ c.frozen)).filter
          (fun p => !p.shutdownOk)).isEmpty = false := by
        simpa using hrej
      have hrm : removeRun pat c =
          (Except.error (Err.shutdownFail
              (((matchPools (patTest pat) (c.pools ++ c.frozen)).filter
                (fun p => !p.shutdownOk)).map Pool.name)),
            { c with pools := c.pools.filter (fun p =>
              !(((matchPools (patTest pat) (c.pools ++ c.frozen)).filter
                (fun q => q.shutdownOk)).any (fun q => q.pid == p.pid))) }) := by
        simp [removeRun, hc, hv, hemp', hrej']
      have hnotall : ¬((matchPools (patTest pat) (c.pools ++ c.frozen)).all
          (fun p => p.shutdownOk) = true) := by
        intro hall
        apply hrej
        apply List.isEmpty_iff.mpr
        apply List.filter_eq_nil_iff.mpr
        intro a ha
        have := List.all_eq_true.mp hall a ha
        simp [this]
      refine ⟨by rw [hrm], ?_, ?_⟩
      · rw [hrm]
        apply List.filter_congr
        intro p hp
        rw [key p hp]
      · rw [hrm]
        simp [hnotall]

/-- Witness for C3 at the concrete two-pool cluster of the spec
scenario. -/
theorem ordered_rotation_roundrobin_witness :
    getPool 0 none exCluster =
      Except.ok (exAsia1, { exCluster with pools := [exAsia2] ++ [exAsia1] }) ∧
    selectN 0 (exAsia1 :: [exAsia2]).length exCluster =
      (exAsia1 :: [exAsia2], exCluster) ∧
    getPool 0 none (selectN 0 (exAsia1 :: [exAsia2]).length exCluster).2 =
      Except.ok (exAsia1, { exCluster with pools := [exAsia2] ++ [exAsia1] }) :=
  ordered_rotation_roundrobin 0 exCluster exAsia1 [exAsia2] rfl rfl

/-- Concrete instance of the remove behaviour at the reachable
cluster whose only pool is frozen. -/
theorem remove_mutates_active_only_witness :
    (removeRun (Pattern.str "asia_1") exFrozenCluster).2.frozen =
      exFrozenCluster.frozen ∧
    (removeRun (Pattern.str "asia_1") exFrozenCluster).2.pools =
      exFrozenCluster.pools.filter
        (fun p => !((patTest (Pattern.str "asia_1")) p.name && p.shutdownOk)) ∧
    ((removeRun (Pattern.str "asia_1") exFrozenCluster).1 = Except.ok () ↔
      (matchPools (patTest (Pattern.str "asia_1"))
          (exFrozenCluster.pools ++ exFrozenCluster.frozen)).all
        (fun p => p.shutdownOk) = true) :=
  remove_mutates_active_only (Pattern.str "asia_1") exFrozenCluster rfl
    (by decide) (by decide)

/-- A filtered list is non-empty exactly when some element satisfies
the predicate. -/
theorem not_isEmpty_filter_eq_any (f : Pool → Bool) :
    ∀ l : List Pool, (!(l.filter f).isEmpty) = l.any f := by
  intro l
  induction l with
  | nil => rfl
  | cons a t ih =>
    by_cases h : f a = true
    · simp [List.filter_cons, h]
    · simp only [Bool.not_eq_true] at h
      simp [List.filter_cons, h, ih]

/-- C2 counterexample: the claim fails on the code in both directions
of its biconditional. Adding a pool named a to the reachable cluster
whose only registered name is ab fails with Conflict although no
registered name equals a (the conflict check is an unanchored regular
expression test, so a matches inside ab). Adding a second pool named
caret-x to the cluster already holding one fails to detect the exact
duplicate, because the compiled expression anchors at x and never
matches the literal caret, so the duplicate is appended. -/
theorem add_conflict_counterexample :
    exAbCluster.pools.map Pool.name = ["ab"] ∧
    exAbCluster.frozen = [] ∧
    ("a" : String) ≠ "ab" ∧
    addRun ⟨2, "a", true⟩ exAbCluster =
      (Except.error (Err.conflict "a"), exAbCluster) ∧
    exCaretCluster.pools.map Pool.name = ["^x"] ∧
    (addRun ⟨2, "^x", true⟩ exCaretCluster).1 = Except.ok () ∧
    (addRun ⟨2, "^x", true⟩ exCaretCluster).2.pools.map Pool.name =
      ["^x", "^x"] := by
  decide

/-- C2 amended: on a Live cluster, `add(pool)` with a valid pool fails
with Conflict exactly when the unanchored regular expression compiled
from the new pool name (first star replaced by dot-star) matches the
name of some pool in active or frozen — equality of names is neither
necessary nor sufficient — in which case the state is unchanged;
otherwise the pool is appended at the end of the active set. -/
theorem add_conflict_regex (p : Pool) (c : Cluster) (hc : c.closed = false) :
    addRun p c =
      if (c.pools ++ c.frozen).any (fun q => regexTest (toRegexSrc p.name) q.name)
      then (Except.error (Err.conflict p.name), c)
      else (Except.ok (), { c with pools := c.pools ++ [p] }) := by
  have hcond : (hasActiveName c p.name || hasFrozenName c p.name) =
      (c.pools ++ c.frozen).any (fun q => regexTest (toRegexSrc p.name) q.name) := by
    unfold hasActiveName hasFrozenName
    rw [matchPools_eq_filter, matchPools_eq_filter,
      not_isEmpty_filter_eq_any, not_isEmpty_filter_eq_any, List.any_append]
  rw [addRun, hc, hcond]
  simp

/-- Witness for C2 (amended) at the reachable one-pool cluster with
registered name ab and the conflicting new name a. -/
theorem add_conflict_regex_witness :
    addRun ⟨2, "a", true⟩ exAbCluster =
      if (exAbCluster.pools ++ exAbCluster.frozen).any
          (fun q => regexTest (toRegexSrc (Pool.name ⟨2, "a", true⟩)) q.name)
      then (Except.error (Err.conflict (Pool.name ⟨2, "a", true⟩)), exAbCluster)
      else (Except.ok (),
        { exAbCluster with pools := exAbCluster.pools ++ [⟨2, "a", true⟩] }) :=
  add_conflict_regex ⟨2, "a", true⟩ exAbCluster (by decide)

/-- `remove` never changes the Live/Closed flag. -/
theorem removeRun_closed (pat : Pattern) (c : Cluster) :
    (removeRun pat c).2.closed = c.closed := by
  simp only [removeRun]
  split_ifs <;> rfl

/-- `closePendingConnections` never changes the Live/Closed flag. -/
theorem closePendingRun_closed (force : Bool) (c : Cluster) :
    (closePendingRun force c).2.closed = c.closed := by
  simp only [closePendingRun]
  split_ifs <;> first | rfl | (split <;> rfl)

/-- C5: after a fully successful `shutdown()`, the cluster is in the
terminal Closed state: every subsequent add throws the terminal-state
error, every subsequent remove, request, shutdown or
closePendingConnections rejects with it, none of them mutates the
state any further (so the Closed state is irreversible), and in
particular a second shutdown can never succeed again. -/
theorem shutdown_terminal_state (force f2 : Bool) (c c' : Cluster) (p : Pool)
    (pat : Pattern) (rnd : Nat) (patO : Option Pattern)
    (h : shutdownRun force c = (Except.ok (), c')) :
    c'.closed = true ∧
    addRun p c' = (Except.error Err.terminal, c') ∧
    removeRun pat c' = (Except.error Err.terminal, c') ∧
    requestRun rnd patO c' = Except.error Err.terminal ∧
    shutdownRun f2 c' = (Except.error Err.terminal, c') ∧
    closePendingRun f2 c' = (Except.error Err.terminal, c') := by
  have hcl : c'.closed = true := by
    by_cases hcc : c.closed = true
    · simp [shutdownRun, hcc] at h
    · have hcc' : c.closed = false := by simpa using hcc
      rcases hr1 : removeRun (Pattern.str "*") c with ⟨r1, c1⟩
      cases r1 with
      | error e => simp [shutdownRun, hcc', hr1] at h
      | ok u =>
        rcases hr2 : closePendingRun force c1 with ⟨r2, c2⟩
        cases r2 with
        | error e => simp [shutdownRun, hcc', hr1, hr2] at h
        | ok u2 =>
          simp only [shutdownRun, hcc', hr1, hr2] at h
          simp only [Bool.false_eq_true, if_false] at h
          have := (Prod.mk.injEq _ _ _ _).mp h
          rw [← this.2]
  refine ⟨hcl, ?_, ?_, ?_, ?_, ?_⟩
  · simp [addRun, hcl]
  · simp [removeRun, hcl]
  · simp [requestRun, hcl]
  · simp [shutdownRun, hcl]
  · simp [closePendingRun, hcl]

/-- Witness for C5: shutting down the fresh cluster succeeds and
yields the Closed state. -/
theorem shutdown_terminal_state_witness :
    ({ Cluster.init with closed := true } : Cluster).closed = true ∧
    addRun exAsia1 { Cluster.init with closed := true } =
      (Except.error Err.terminal, { Cluster.init with closed := true }) ∧
    removeRun (Pattern.str "x") { Cluster.init with closed := true } =
      (Except.error Err.terminal, { Cluster.init with closed := true }) ∧
    requestRun 0 none { Cluster.init with closed := true } =
      Except.error Err.terminal ∧
    shutdownRun false { Cluster.init with closed := true } =
      (Except.error Err.terminal, { Cluster.init with closed := true }) ∧
    closePendingRun false { Cluster.init with closed := true } =
      (Except.error Err.terminal, { Cluster.init with closed := true }) :=
  shutdown_terminal_state false false Cluster.init
    { Cluster.init with closed := true } exAsia1 (Pattern.str "x") 0 none
    (by decide)

/-- C6: when `shutdown(force)` fails because `remove('*')` rejects, or
because remove resolves and `closePendingConnections(force)` rejects,
the call rejects with a ShutdownError wrapping the message of the
underlying cause, the resulting state is exactly the state the two
sub-steps left behind (committed removals and closures are kept), and
the cluster remains Live: no terminal stub is installed. -/
theorem shutdown_failure_stays_live (force : Bool) (c c1 c2 cOut : Cluster)
    (r1 r2 : Except Err Unit) (e : Err)
    (hc : c.closed = false)
    (h1 : removeRun (Pattern.str "*") c = (r1, c1))
    (h2 : closePendingRun force c1 = (r2, c2))
    (hcase : (r1 = Except.error e ∧ cOut = c1) ∨
      (r1 = Except.ok () ∧ r2 = Except.error e ∧ cOut = c2)) :
    shutdownRun force c =
      (Except.error (Err.shutdownWrap (errMessage e)), cOut) ∧
    cOut.closed = false := by
  have hcl1 : c1.closed = false := by
    have hpre := removeRun_closed (Pattern.str "*") c
    rw [h1] at hpre
    rw [hpre, hc]
  have hcl2 : c2.closed = false := by
    have hpre := closePendingRun_closed force c1
    rw [h2] at hpre
    rw [hpre, hcl1]
  rcases hcase with ⟨he, hout⟩ | ⟨he1, he2, hout⟩
  · subst he
    subst hout
    constructor
    · simp [shutdownRun, hc, h1]
    · exact hcl1
  · subst he1
    subst he2
    subst hout
    constructor
    · simp [shutdownRun, hc, h1, h2]
    · exact hcl2

/-- Witness for C6 at the reachable cluster whose single pool refuses
to shut down: the first sub-step fails and shutdown wraps its
message. -/
theorem shutdown_failure_stays_live_witness :
    shutdownRun false exFailCluster =
      (Except.error
        (Err.shutdownWrap (errMessage (Err.shutdownFail ["w"]))),
        exFailCluster) ∧
    exFailCluster.closed = false :=
  shutdown_failure_stays_live false exFailCluster exFailCluster exFailCluster
    exFailCluster (Except.error (Err.shutdownFail ["w"])) (Except.ok ())
    (Err.shutdownFail ["w"]) (by decide) (by decide) (by decide)
    (Or.inl ⟨rfl, rfl⟩)

/-- C7: `closePendingConnections(false)` on a Live cluster resolves at
once and without mutation on an empty store; in general it retains
exactly the connections whose close failed, resolves exactly when
every close succeeded, and when the first failing connection (in
iteration order) is `con` it rejects with that connection's close
error, keeping the partial progress. -/
theorem pending_reclamation (c : Cluster) (con : Conn) (hc : c.closed = false) :
    (c.pending = [] → closePendingRun false c = (Except.ok (), c)) ∧
    (closePendingRun false c).2.pending =
      c.pending.filter (fun x => !x.closeOk) ∧
    ((closePendingRun false c).1 = Except.ok () ↔
      c.pending.all (fun x => x.closeOk) = true) ∧
    (c.pending.find? (fun x => !x.closeOk) = some con →
      (closePendingRun false c).1 = Except.error (Err.closeFail con.errMsg)) := by
  by_cases hpe : c.pending.isEmpty = true
  · have hnil : c.pending = [] := List.isEmpty_iff.mp hpe
    have hrm : closePendingRun false c = (Except.ok (), c) := by
      simp [closePendingRun, hc, hpe]
    refine ⟨fun _ => hrm, ?_, ?_, ?_⟩
    · rw [hrm, hnil]
      rfl
    · rw [hrm]
      simp [hnil]
    · intro hcon
      rw [hnil] at hcon
      simp at hcon
  · have hpe' : c.pending.isEmpty = false := by simpa using hpe
    cases hfind : c.pending.find? (fun x => !x.closeOk) with
    | none =>
      have hrm : closePendingRun false c =
          (Except.ok (), { c with pending := [] }) := by
        simp [closePendingRun, hc, hpe', hfind]
      have hall : c.pending.all (fun x => x.closeOk) = true := by
        apply List.all_eq_true.mpr
        intro x hx
        have hnx := List.find?_eq_none.mp hfind x hx
        simpa using hnx
      have hfil : c.pending.filter (fun x => !x.closeOk) = [] := by
        apply List.filter_eq_nil_iff.mpr
        intro a ha
        simp [List.all_eq_true.mp hall a ha]
      refine ⟨?_, ?_, ?_, ?_⟩
      · intro hn
        exact absurd (List.isEmpty_iff.mpr hn) hpe
      · rw [hrm, hfil]
      · rw [hrm]
        simp [hall]
      · intro hcon
        exact absurd hcon (by simp)
    | some con0 =>
      have hrm : closePendingRun false c =
          (Except.error (Err.closeFail con0.errMsg),
            { c with pending := c.pending.filter (fun x => !x.closeOk) }) := by
        simp [closePendingRun, hc, hpe', hfind]
      have hnall : ¬(c.pending.all (fun x => x.closeOk) = true) := by
        intro hall
        have hp0 := List.find?_some hfind
        have hm0 := List.mem_of_find?_eq_some hfind
        have := List.all_eq_true.mp hall con0 hm0
        simp [this] at hp0
      refine ⟨?_, ?_, ?_, ?_⟩
      · intro hn
        exact absurd (List.isEmpty_iff.mpr hn) hpe
      · rw [hrm]
      · rw [hrm]
        simp [hnall]
      · intro hcon
        have hcc : con0 = con := by injection hcon
        rw [hrm, hcc]

/-- Witness for C7 at the cluster with two pending connections whose
first fails to close. -/
theorem pending_reclamation_witness :
    (exPendCluster.pending = [] →
      closePendingRun false exPendCluster = (Except.ok (), exPendCluster)) ∧
    (closePendingRun false exPendCluster).2.pending =
      exPendCluster.pending.filter (fun x => !x.closeOk) ∧
    ((closePendingRun false exPendCluster).1 = Except.ok () ↔
      exPendCluster.pending.all (fun x => x.closeOk) = true) ∧
    (exPendCluster.pending.find? (fun x => !x.closeOk) =
        some ⟨1, false, "boom"⟩ →
      (closePendingRun false exPendCluster).1 =
        Except.error (Err.closeFail (Conn.errMsg ⟨1, false, "boom"⟩))) :=
  pending_reclamation exPendCluster ⟨1, false, "boom"⟩ (by decide)

/-- C8: when a failure event fires on a cluster whose configured
logger rejects its write, exactly two warnings are recorded — the
original failure warning first, then the logger-failure warning — and
nothing else in the state changes; the handler returns normally, so
the logger rejection never reaches the caller of the triggering
operation. -/
theorem logger_failure_two_warnings (c : Cluster) (lg : MLogger) (nm : String)
    (hl : c.logger = some lg) (hfail : lg.logOk = false) :
    onCreateFail nm c =
      { c with warnings := c.warnings ++
          ["Creating connection failed in: " ++ nm,
            "Failed to write log: " ++ lg.errMsg] } ∧
    (onCreateFail nm c).warnings.length = c.warnings.length + 2 := by
  have h1 : onCreateFail nm c =
      { c with warnings := c.warnings ++
          ["Creating connection failed in: " ++ nm,
            "Failed to write log: " ++ lg.errMsg] } := by
    simp [onCreateFail, logWarn, hl, hfail]
  refine ⟨h1, ?_⟩
  rw [h1]
  simp

/-- Witness for C8 at the cluster configured with an always-rejecting
logger. -/
theorem logger_failure_two_warnings_witness :
    onCreateFail "main" exLoggerCluster =
      { exLoggerCluster with warnings := exLoggerCluster.warnings ++
          ["Creating connection failed in: " ++ "main",
            "Failed to write log: " ++ MLogger.errMsg ⟨false, "Ops"⟩] } ∧
    (onCreateFail "main" exLoggerCluster).warnings.length =
      exLoggerCluster.warnings.length + 2 :=
  logger_failure_two_warnings exLoggerCluster ⟨false, "Ops"⟩ "main" rfl rfl

/-- The empty item list matches any input. -/
theorem itemsMatch_nil (s : List Char) : itemsMatch [] s = true := by
  cases s <;> rfl

/-- Unanchored search succeeds whenever the items match at some start
position of the input. -/
theorem searchFrom_of_suffix :
    ∀ (front suffix : List Char) (ps : List RItem),
      itemsMatch ps suffix = true → searchFrom ps (front ++ suffix) = true := by
  intro front
  induction front with
  | nil =>
    intro suffix ps h
    cases suffix with
    | nil => simpa [searchFrom] using h
    | cons x xs => simp [searchFrom, h]
  | cons a front' ih =>
    intro suffix ps h
    simp [searchFrom, ih suffix ps h]

/-- A string without a star is left unchanged by the wildcard
replacement. -/
theorem replaceFirstStar_no_star :
    ∀ l : List Char, '*' ∉ l → replaceFirstStar l = l := by
  intro l
  induction l with
  | nil => intro _; rfl
  | cons a t ih =>
    intro h
    have ha : a ≠ '*' := fun he => h (he ▸ List.mem_cons_self a t)
    have ht : '*' ∉ t := fun hm => h (List.mem_cons_of_mem a hm)
    simp [replaceFirstStar, ha, ih ht]

/-- Only the first star of a pattern is replaced by a dot-star; stars
after it are kept verbatim in the regular-expression source. -/
theorem replaceFirstStar_split :
    ∀ pre post : List Char, '*' ∉ pre →
      replaceFirstStar (pre ++ '*' :: post) = pre ++ '.' :: '*' :: post := by
  intro pre
  induction pre with
  | nil => intro post _; simp [replaceFirstStar]
  | cons a t ih =>
    intro post h
    have ha : a ≠ '*' := fun he => h (he ▸ List.mem_cons_self a t)
    have ht : '*' ∉ t := fun hm => h (List.mem_cons_of_mem a hm)
    simp [replaceFirstStar, ha, ih post ht]

/-- C9: the wildcard conversion replaces exactly the first star of a
string pattern by a dot-star (later stars stay verbatim) and leaves
starless patterns unchanged; `match` selects exactly the pools whose
name the compiled expression tests true on; matching is unanchored
(a match at any start position makes the test succeed when the
pattern does not anchor with a caret) and case sensitive; and a
multi-star pattern does not match as a plain wildcard reading would
suggest: the second star of a*b*c becomes a Kleene star on b, so the
compiled expression accepts axc, which contains no b at all. -/
theorem wildcard_first_star_only (pre post : List Char) (s2 pat1 s1 : String)
    (test : String → Bool) (pools : List Pool) (front suffix : List Char)
    (hpre : '*' ∉ pre) (hs2 : '*' ∉ s2.data)
    (hnc : pat1.data.head? ≠ some '^')
    (hdec : s1.data = front ++ suffix)
    (hmm : itemsMatch (parseItems pat1.data) suffix = true) :
    toRegexSrc ⟨pre ++ '*' :: post⟩ = ⟨pre ++ '.' :: '*' :: post⟩ ∧
    toRegexSrc s2 = s2 ∧
    matchPools test pools = pools.filter (fun p => test p.name) ∧
    regexTest pat1 s1 = true ∧
    regexTest "a" "a" = true ∧ regexTest "a" "A" = false ∧
    toRegexSrc "a*b*c" = "a.*b*c" ∧
    regexTest (toRegexSrc "a*b*c") "axc" = true := by
  refine ⟨?_, ?_, matchPools_eq_filter test pools, ?_,
    by decide, by decide, by decide, by decide⟩
  · show String.mk (replaceFirstStar (pre ++ '*' :: post)) = _
    rw [replaceFirstStar_split pre post hpre]
  · show String.mk (replaceFirstStar s2.data) = s2
    rw [replaceFirstStar_no_star s2.data hs2]
  · rcases hd : pat1.data with _ | ⟨c0, rest⟩
    · rw [hd] at hmm
      unfold regexTest
      rw [hd]
      show searchFrom (parseItems []) s1.data = true
      rw [hdec]
      exact searchFrom_of_suffix front suffix (parseItems []) hmm
    · have hc0 : c0 ≠ '^' := by
        intro he
        apply hnc
        rw [hd, he]
        rfl
      rw [hd] at hmm
      unfold regexTest
      rw [hd]
      show (if c0 = '^' then itemsMatch (parseItems rest) s1.data
        else searchFrom (parseItems (c0 :: rest)) s1.data) = true
      rw [if_neg hc0, hdec]
      exact searchFrom_of_suffix front suffix (parseItems (c0 :: rest)) hmm

/-- Witness for C9 at concrete pattern fragments: prefix a before the
star, suffix containing a second star, the starless string plain, and
the unanchored match of pattern si inside asia. -/
theorem wildcard_first_star_only_witness :
    toRegexSrc ⟨['a'] ++ '*' :: ['b', '*', 'c']⟩ =
      ⟨['a'] ++ '.' :: '*' :: ['b', '*', 'c']⟩ ∧
    toRegexSrc "plain" = "plain" ∧
    matchPools (fun s => s == "asia_1") [exAsia1, exAsia2] =
      [exAsia1, exAsia2].filter (fun p => (fun s => s == "asia_1") p.name) ∧
    regexTest "si" "asia" = true ∧
    regexTest "a" "a" = true ∧ regexTest "a" "A" = false ∧
    toRegexSrc "a*b*c" = "a.*b*c" ∧
    regexTest (toRegexSrc "a*b*c") "axc" = true :=
  wildcard_first_star_only ['a'] ['b', '*', 'c'] "plain" "si" "asia"
    (fun s => s == "asia_1") [exAsia1, exAsia2] ['a'] ['s', 'i', 'a']
    (by decide) (by decide) (by decide) (by decide) (by decide)

/-- The forEach loop of `set.warnings` pushes the leading string
elements and stops with the invalid-warning error at the first
non-string element, keeping what it pushed. -/
theorem pushWarnings_spec (d : String) (rest : List WInput) :
    ∀ (pre : List String) (c : Cluster),
      pushWarnings (pre.map WInput.str ++ WInput.other d :: rest) c =
        (Except.error (Err.invalidWarning d),
          { c with warnings := c.warnings ++ pre }) := by
  intro pre
  induction pre with
  | nil => intro c; simp [pushWarnings]
  | cons s pre' ih =>
    intro c
    rw [List.map_cons, List.cons_append, pushWarnings]
    rw [ih { c with warnings := c.warnings ++ [s] }]
    simp

/-- C10: calling `set.warnings` with a non-empty array whose first
non-string element sits at position k (after k leading strings) fails
with the invalid-warning error after having already appended those k
leading strings to the warnings list; the appended prefix is not
rolled back. -/
theorem set_warnings_partial_append (pre : List String) (d : String)
    (rest : List WInput) (c : Cluster) :
    setWarningsRun (WArg.arr (pre.map WInput.str ++ WInput.other d :: rest)) c =
      (Except.error (Err.invalidWarning d),
        { c with warnings := c.warnings ++ pre }) := by
  cases pre with
  | nil =>
    rw [setWarningsRun.eq_def]
    simp [pushWarnings]
  | cons s pre' =>
    rw [List.map_cons, List.cons_append, setWarningsRun.eq_def]
    simp only []
    rw [pushWarnings]
    rw [pushWarnings_spec d rest pre' { c with warnings := c.warnings ++ [s] }]
    simp

end MegaClusterModel
